import Mathlib

/-!
Verification development for the streaming retrieval-augmented-citation
pipeline of the Rosetta-HackHive backend.

The definitions below are a shallow embedding of
`backend/app/services/rag.py` (KeywordExtractor, QueryEnrichmentService,
RerankerService, RAGService), `backend/app/services/transcript.py`
(SlidingWindowBuffer) and `backend/app/api/routes/transcribe.py`
(SegmentBuffer).  Python floats are modelled as exact rationals,
Python dicts with possibly-missing keys as structures of `Option` fields,
and exceptions of external collaborators as explicit `Option`/`Bool`
parameters of an environment record.
-/

namespace RAG

/-! ### Configuration defaults, from `app/core/config.py` -/

def rag_top_k_candidates : Nat := 5

def rag_top_k_results : Nat := 3

def rag_relevance_threshold : ℚ := 2/5

def rag_distance_threshold : ℚ := 3/2

/-! ### Python string helpers

`pyStrip` models `str.strip()` (remove leading/trailing whitespace) and
`pyWords` models `str.split()` with no argument (split on whitespace
runs, dropping empty pieces). -/

def pyStrip (s : String) : List Char :=
  ((s.data.dropWhile Char.isWhitespace).reverse.dropWhile Char.isWhitespace).reverse

def pyStripLen (s : String) : Nat := (pyStrip s).length

def pyWordsAux : List Char → List Char → List (List Char)
  | [], acc => if acc.isEmpty then [] else [acc.reverse]
  | c :: cs, acc =>
    if c.isWhitespace then
      if acc.isEmpty then pyWordsAux cs []
      else acc.reverse :: pyWordsAux cs []
    else pyWordsAux cs (c :: acc)

def pyWords (s : String) : List (List Char) := pyWordsAux s.data []

/-! ### Data model

`Metadata` models the Pinecone metadata dict of a candidate; a `none`
field models an absent key.  `Candidate` models the candidate dicts built
by `RAGService._build_candidates`; `relevance_score` is `none` until the
reranker assigns it.  `CitationResult`, `QueryMetadata` and
`RAGQueryResponse` mirror `app/schemas/rag.py`. -/

structure Metadata where
  document_id : Option String := none
  document_name : Option String := none
  page_number : Option Int := none
  section_heading : Option String := none
  deriving DecidableEq, Repr

structure Candidate where
  id : String
  text : String
  metadata : Metadata
  distance : ℚ
  relevance_score : Option ℚ := none
  deriving DecidableEq, Repr

structure CitationResult where
  rank : Nat
  document_id : String
  document_name : String
  page_number : Int
  section_heading : Option String
  snippet : String
  relevance_score : ℚ
  deriving DecidableEq, Repr

structure QueryMetadata where
  keywords : List String
  expanded_concepts : List String
  processing_time_ms : Nat
  deriving DecidableEq, Repr

structure RAGQueryResponse where
  window_index : Int
  citations : List CitationResult
  query_metadata : QueryMetadata
  deriving DecidableEq, Repr

/-- Python truthiness of `metadata.get("document_id")`: falsy when the key
is absent or the stored string is empty (`if not document_id: continue`). -/
def docIdTruthy (m : Metadata) : Bool :=
  match m.document_id with
  | none => false
  | some d => d ≠ ""

/-! ### Search results and candidate construction

`SearchResults` models the (already unwrapped) first row of the Pinecone
response dict used by `RAGService._build_candidates`; the lists may have
different lengths, in which case the Python code falls back to the
defaults `""`, `{}` and `1.0`. -/

structure SearchResults where
  ids : List String
  documents : List String
  metadatas : List Metadata
  distances : List ℚ

def buildCandidates (r : SearchResults) : List Candidate :=
  (List.range r.ids.length).map fun i =>
    { id := r.ids.getD i ""
      text := r.documents.getD i ""
      metadata := r.metadatas.getD i {}
      distance := r.distances.getD i 1
      relevance_score := none }

/-! ### Environment

All external collaborators (KeyBERT, the embedding model, Pinecone, the
cross-encoder, Convex) are modelled as fields of `RAGEnv`.  A `false`
availability flag models a model load failure; `keywordExtract` returning
`none` and `rerankerScoreOk = false` model exceptions raised by the
respective model during inference; `persistOk = false` models a Convex
write failure. -/

structure RAGEnv where
  keywordModelAvailable : Bool
  keywordExtract : String → Option (List String)
  embed : String → List ℚ
  search : List ℚ → Nat → SearchResults
  rerankerModelAvailable : Bool
  rerankerScoreOk : Bool
  rerankerScore : String → String → ℚ
  persistOk : Bool
  elapsedMs : Nat

/-! ### Keyword extraction and query enrichment
from `KeywordExtractor.extract_keywords` and
`QueryEnrichmentService.enrich_query` -/

/-- `KeywordExtractor.extract_keywords`: empty or short (stripped length
less than 10) text returns `[]` before touching the model; a missing model
or an extraction exception also degrade to `[]`. -/
def extractKeywords (env : RAGEnv) (text : String) : List String :=
  if text = "" ∨ pyStripLen text < 10 then []
  else if env.keywordModelAvailable = false then []
  else
    match env.keywordExtract text with
    | none => []
    | some kws => kws

/-- Number of actual KeyBERT inference calls made by
`extract_keywords` (0 on the short-text and model-unavailable paths). -/
def keywordModelCallCount (env : RAGEnv) (text : String) : Nat :=
  if text = "" ∨ pyStripLen text < 10 then 0
  else if env.keywordModelAvailable = false then 0
  else 1

structure EnrichmentResult where
  keywords : List String
  concepts : List String
  enriched_query : String
  deriving DecidableEq, Repr

/-- `QueryEnrichmentService._build_enriched_query`: the original text with
the space-joined keywords appended once, or the text unchanged if there
are no keywords. -/
def buildEnrichedQuery (original_text : String) (keywords : List String) : String :=
  if keywords = [] then original_text
  else original_text ++ " " ++ String.intercalate " " keywords

/-- `QueryEnrichmentService.enrich_query`. -/
def enrichQuery (env : RAGEnv) (text : String) : EnrichmentResult :=
  let keywords := extractKeywords env text
  { keywords := keywords
    concepts := []
    enriched_query := buildEnrichedQuery text keywords }

/-! ### Reranker, from `RerankerService` -/

/-- `RerankerService._fallback_ranking`: assign every candidate the
distance-derived score `max 0 (1 - distance/2)` and return the first
`top_k` candidates; no threshold filtering happens on this path. -/
def fallbackRanking (candidates : List Candidate) (top_k : Nat) : List Candidate :=
  (candidates.map fun c =>
    { c with relevance_score := some (max 0 (1 - c.distance / 2)) }).take top_k

/-- Stable insertion of an earlier element into a descending-sorted list of
(candidate, score) pairs: it passes strictly greater scores and stops at the
first score less than or equal to its own, matching the stability of
Python's `list.sort(key=..., reverse=True)`. -/
def insertDesc (x : Candidate × ℚ) : List (Candidate × ℚ) → List (Candidate × ℚ)
  | [] => [x]
  | y :: ys => if x.2 < y.2 then y :: insertDesc x ys else x :: y :: ys

/-- Stable sort of (candidate, score) pairs, descending by score, modelling
`scored_candidates.sort(key=lambda x: x[1], reverse=True)`. -/
def sortDesc : List (Candidate × ℚ) → List (Candidate × ℚ)
  | [] => []
  | x :: xs => insertDesc x (sortDesc xs)

/-- The loop body of the cross-encoder path: keep a pair from the truncated
sorted list only if its score reaches the relevance threshold, recording
the score on the candidate. -/
def thresholdKeep (p : Candidate × ℚ) : Option Candidate :=
  if rag_relevance_threshold ≤ p.2 then
    some { p.1 with relevance_score := some p.2 }
  else none

/-- Cross-encoder path of `RerankerService.rerank`: score every pair, sort
descending, truncate to `top_k`, then threshold-filter the truncated
prefix in order. -/
def rerankCross (score : String → String → ℚ) (query : String)
    (candidates : List Candidate) (top_k : Nat) : List Candidate :=
  let scored := candidates.map fun c => (c, score query c.text)
  let sorted := sortDesc scored
  (sorted.take top_k).filterMap thresholdKeep

/-- Python's `top_k = top_k or settings.rag_top_k_results`: `None` and `0`
both fall back to the configured default. -/
def resolveTopK : Option Nat → Nat
  | none => rag_top_k_results
  | some 0 => rag_top_k_results
  | some k => k

/-- `RerankerService.rerank`: empty input returns `[]` without touching the
model; a missing model or a scoring exception fall back to
`_fallback_ranking`; otherwise the cross-encoder path runs. -/
def rerank (env : RAGEnv) (query : String) (candidates : List Candidate)
    (topk? : Option Nat) : List Candidate :=
  let top_k := resolveTopK topk?
  if candidates = [] then []
  else if env.rerankerModelAvailable = false then fallbackRanking candidates top_k
  else if env.rerankerScoreOk = false then fallbackRanking candidates top_k
  else rerankCross env.rerankerScore query candidates top_k

/-- Score of a candidate as read by `_build_citations`:
`candidate.get("relevance_score", 0.5)`. -/
def relScore (c : Candidate) : ℚ := c.relevance_score.getD (1/2)

/-! ### Early-exit gate, from `RAGService._should_early_exit` -/

def minDistance : List Candidate → ℚ
  | [] => 0
  | c :: cs => cs.foldl (fun m d => min m d.distance) c.distance

def shouldEarlyExit (candidates : List Candidate) : Bool :=
  match candidates with
  | [] => true
  | _ :: _ => rag_distance_threshold < minDistance candidates

/-! ### Citation assembly, from `RAGService._build_citations` -/

/-- One citation record, with every default of `_build_citations`:
`document_name` defaults to `"Unknown"`, `page_number` to `0`,
`section_heading` stays optional, the snippet is the first 200 characters
of the candidate text, and a candidate carrying no `relevance_score`
defaults to `0.5`. -/
def mkCitation (rank : Nat) (c : Candidate) (did : String) : CitationResult :=
  { rank := rank
    document_id := did
    document_name := c.metadata.document_name.getD "Unknown"
    page_number := c.metadata.page_number.getD 0
    section_heading := c.metadata.section_heading
    snippet := ⟨c.text.data.take 200⟩
    relevance_score := relScore c }

/-- The loop of `_build_citations`: `rank` follows
`enumerate(reranked, start=1)` and keeps advancing even when a candidate is
skipped for a missing (or empty) `document_id`. -/
def buildCitationsAux : Nat → List Candidate → List CitationResult
  | _, [] => []
  | rank, c :: rest =>
    match c.metadata.document_id with
    | some did =>
      if did ≠ "" then mkCitation rank c did :: buildCitationsAux (rank + 1) rest
      else buildCitationsAux (rank + 1) rest
    | none => buildCitationsAux (rank + 1) rest

def buildCitations (reranked : List Candidate) : List CitationResult :=
  buildCitationsAux 1 reranked

/-! ### The full pipeline, from `RAGService.query`

The stages are named so that theorems can speak about intermediate
values; their composition follows the source line by line.  `QueryOutcome`
carries, besides the response, instrumentation counters for the external
models and the persistence attempt. -/

def enrichedOf (env : RAGEnv) (text : String) : String :=
  (enrichQuery env text).enriched_query

def candidatesOf (env : RAGEnv) (text : String) : List Candidate :=
  buildCandidates (env.search (env.embed (enrichedOf env text)) rag_top_k_candidates)

def rerankedOf (env : RAGEnv) (text : String) : List Candidate :=
  rerank env text (candidatesOf env text) (some rag_top_k_results)

def citationsOf (env : RAGEnv) (text : String) : List CitationResult :=
  buildCitations (rerankedOf env text)

def metadataOf (env : RAGEnv) (text : String) : QueryMetadata :=
  { keywords := extractKeywords env text
    expanded_concepts := []
    processing_time_ms := env.elapsedMs }

structure QueryOutcome where
  response : RAGQueryResponse
  keywordModelCalls : Nat
  embedCalls : Nat
  vectorQueryCalls : Nat
  rerankCalls : Nat
  persistCalls : Nat
  persistError : Option String
  deriving DecidableEq, Repr

/-- `RAGService._store_citations_in_convex`: the Convex write either
succeeds or raises; the caller catches and logs the error. -/
def storeCitations (ok : Bool) : Except String Unit :=
  if ok then Except.ok () else Except.error "convex write failed"

/-- `RAGService.query`: enrichment, embedding and vector search always run;
on early exit the reranker is skipped and an empty citation list is
returned with the same metadata shape; otherwise reranking, citation
assembly and (for a non-empty batch) a best-effort Convex write follow.
A persistence failure is recorded but never alters the response. -/
def ragQuery (env : RAGEnv) (_session_id : String) (transcript_text : String)
    (window_index : Int) : QueryOutcome :=
  let kcalls := keywordModelCallCount env transcript_text
  if shouldEarlyExit (candidatesOf env transcript_text) then
    { response :=
        { window_index := window_index
          citations := []
          query_metadata := metadataOf env transcript_text }
      keywordModelCalls := kcalls
      embedCalls := 1
      vectorQueryCalls := 1
      rerankCalls := 0
      persistCalls := 0
      persistError := none }
  else
    let citations := citationsOf env transcript_text
    let persisted := citations ≠ []
    { response :=
        { window_index := window_index
          citations := citations
          query_metadata := metadataOf env transcript_text }
      keywordModelCalls := kcalls
      embedCalls := 1
      vectorQueryCalls := 1
      rerankCalls := 1
      persistCalls := if persisted then 1 else 0
      persistError :=
        if persisted then
          match storeCitations env.persistOk with
          | Except.ok _ => none
          | Except.error e => some e
        else none }

/-! ### Sliding window buffer, from
`app/services/transcript.py` (`SlidingWindowBuffer`) -/

def MIN_WORDS : Nat := 15

def MAX_WORDS : Nat := 150

def MIN_SEGMENTS : Nat := 2

/-- The abbreviation set of `SlidingWindowBuffer.ABBREVIATIONS`, as
lowercase character lists. -/
def ABBREVIATIONS : List (List Char) :=
  ["dr.", "prof.", "mr.", "mrs.", "ms.", "jr.", "sr.",
   "etc.", "e.g.", "i.e.", "vs.", "fig.", "eq.", "ch.",
   "vol.", "no.", "p.", "pp.", "ed.", "eds."].map String.data

def sentenceEnd (c : Char) : Bool := c == '.' || c == '!' || c == '?'

/-- Contribution of one maximal run of sentence-ending characters, as
counted by `_count_sentences`: a run of three or more characters (an
ellipsis or longer) counts nothing; a lone period whose surrounding word
(the last whitespace-delimited word of the lowercased text up to and
including the period) is a known abbreviation counts nothing; every other
run counts one sentence.  `run` is the run reversed and `word` is the
reversed lowercased word accumulated just before the run started. -/
def closeRunCount (run word : List Char) : Nat :=
  match run with
  | [] => 0
  | _ =>
    if 2 < run.length then 0
    else if run == ['.'] && ABBREVIATIONS.contains (('.' :: word).reverse) then 0
    else 1

/-- `SlidingWindowBuffer._count_sentences`, as a single scan: `re.finditer`
yields the maximal runs of `[.!?]+`; `run` accumulates the current run
(reversed) and `word` the current whitespace-delimited word (reversed,
lowercased); a run is scored by `closeRunCount` when a non-run character
or the end of the text closes it. -/
def countSentencesAux : List Char → List Char → List Char → Nat
  | [], word, run => closeRunCount run word
  | c :: cs, word, run =>
    if sentenceEnd c then countSentencesAux cs word (Char.toLower c :: run)
    else if c.isWhitespace then
      closeRunCount run word + countSentencesAux cs [] []
    else
      closeRunCount run word + countSentencesAux cs (Char.toLower c :: (run ++ word)) []

def countSentences (s : String) : Nat := countSentencesAux s.data [] []

def countWords (s : String) : Nat := (pyWords s).length

structure SlidingWindowBuffer where
  segments : List String
  target_sentences : Nat := 3
  index : Nat := 0
  deriving DecidableEq, Repr

/-- `SlidingWindowBuffer.get_text`: single-space join of the buffered
fragment texts. -/
def SlidingWindowBuffer.get_text (b : SlidingWindowBuffer) : String :=
  String.intercalate " " b.segments

/-- `SlidingWindowBuffer.is_complete`: trigger when the word count reaches
MAX_WORDS, or the sentence count reaches `target_sentences` with at least
MIN_WORDS words, or the segment count reaches MIN_SEGMENTS with at least
MIN_WORDS words. -/
def SlidingWindowBuffer.is_complete (b : SlidingWindowBuffer) : Bool :=
  let text := b.get_text
  let word_count := countWords text
  let sentence_count := countSentences text
  let segment_count := b.segments.length
  if MAX_WORDS ≤ word_count then true
  else if b.target_sentences ≤ sentence_count ∧ MIN_WORDS ≤ word_count then true
  else if MIN_SEGMENTS ≤ segment_count ∧ MIN_WORDS ≤ word_count then true
  else false

/-! ### Per-segment buffer, from
`app/api/routes/transcribe.py` (`SegmentBuffer`) -/

structure SegmentBuffer where
  current : Option (String × String) := none
  index : Nat := 0
  deriving DecidableEq, Repr

def SegmentBuffer.get_text (b : SegmentBuffer) : String :=
  match b.current with
  | none => ""
  | some p => p.2

/-- `SegmentBuffer.is_complete`: a segment is ready for RAG exactly when
one is present and its text is not whitespace-only. -/
def SegmentBuffer.is_complete (b : SegmentBuffer) : Bool :=
  match b.current with
  | none => false
  | some _ => 0 < pyStripLen b.get_text

/-! ### Helper lemmas about the descending sort -/

theorem insertDesc_perm (x : Candidate × ℚ) (l : List (Candidate × ℚ)) :
    List.Perm (insertDesc x l) (x :: l) := by
  induction l with
  | nil => simp [insertDesc]
  | cons y ys ih =>
    simp only [insertDesc]
    by_cases h : x.2 < y.2
    · simp only [h, if_true]
      exact (ih.cons y).trans (List.Perm.swap x y ys)
    · simp [h]

theorem sortDesc_perm (l : List (Candidate × ℚ)) : List.Perm (sortDesc l) l := by
  induction l with
  | nil => simp [sortDesc]
  | cons x xs ih =>
    exact (insertDesc_perm x (sortDesc xs)).trans (ih.cons x)

theorem insertDesc_pairwise (x : Candidate × ℚ) (l : List (Candidate × ℚ))
    (h : l.Pairwise fun a b => b.2 ≤ a.2) :
    (insertDesc x l).Pairwise fun a b => b.2 ≤ a.2 := by
  induction l with
  | nil => simp [insertDesc]
  | cons y ys ih =>
    rcases List.pairwise_cons.mp h with ⟨hy, hys⟩
    simp only [insertDesc]
    by_cases hxy : x.2 < y.2
    · simp only [hxy, if_true]
      refine List.pairwise_cons.mpr ⟨?_, ih hys⟩
      intro z hz
      rcases List.mem_cons.mp ((insertDesc_perm x ys).mem_iff.mp hz) with hz | hz
      · exact hz ▸ le_of_lt hxy
      · exact hy z hz
    · simp only [hxy, if_false]
      refine List.pairwise_cons.mpr ⟨?_, h⟩
      intro z hz
      rcases List.mem_cons.mp hz with hz | hz
      · exact hz ▸ le_of_not_lt hxy
      · exact le_trans (hy z hz) (le_of_not_lt hxy)

theorem sortDesc_pairwise (l : List (Candidate × ℚ)) :
    (sortDesc l).Pairwise fun a b => b.2 ≤ a.2 := by
  induction l with
  | nil => simp [sortDesc]
  | cons x xs ih => exact insertDesc_pairwise x (sortDesc xs) ih

/-- The score recorded by `thresholdKeep` is the pair's score. -/
theorem relScore_withScore (c : Candidate) (s : ℚ) :
    relScore { c with relevance_score := some s } = s := rfl

theorem filterMap_guard_sublist (l : List (Candidate × ℚ)) :
    List.Sublist (l.filterMap thresholdKeep)
      (l.map fun p => { p.1 with relevance_score := some p.2 }) := by
  induction l with
  | nil => simp
  | cons p ps ih =>
    simp only [List.filterMap, List.map]
    unfold thresholdKeep
    by_cases h : rag_relevance_threshold ≤ p.2
    · simp only [h, if_true]
      exact ih.cons₂ _
    · simp only [h, if_false]
      exact ih.cons _

/-! ### Helper lemmas about the reranker -/

theorem mem_rerankCross_threshold (score : String → String → ℚ) (query : String)
    (candidates : List Candidate) (top_k : Nat) (c : Candidate)
    (hc : c ∈ rerankCross score query candidates top_k) :
    rag_relevance_threshold ≤ relScore c := by
  simp only [rerankCross] at hc
  rcases List.mem_filterMap.mp hc with ⟨p, _, hp⟩
  unfold thresholdKeep at hp
  by_cases h : rag_relevance_threshold ≤ p.2
  · simp only [h, if_true, Option.some_inj] at hp
    rw [← hp, relScore_withScore]
    exact h
  · simp [h] at hp

theorem rerankCross_pairwise (score : String → String → ℚ) (query : String)
    (candidates : List Candidate) (top_k : Nat) :
    (rerankCross score query candidates top_k).Pairwise
      fun a b => relScore b ≤ relScore a := by
  have hsorted :
      ((sortDesc (candidates.map fun c => (c, score query c.text))).take top_k).Pairwise
        (fun a b => b.2 ≤ a.2) :=
    (sortDesc_pairwise _).sublist (List.take_sublist _ _)
  have hmap :
      (((sortDesc (candidates.map fun c => (c, score query c.text))).take top_k).map
        (fun p => { p.1 with relevance_score := some p.2 })).Pairwise
        (fun a b => relScore b ≤ relScore a) := by
    rw [List.pairwise_map]
    exact hsorted
  exact hmap.sublist (filterMap_guard_sublist _)

theorem rerankCross_length_le (score : String → String → ℚ) (query : String)
    (candidates : List Candidate) (top_k : Nat) :
    (rerankCross score query candidates top_k).length ≤ top_k := by
  simp only [rerankCross]
  exact le_trans (List.length_filterMap_le _ _) (List.length_take_le _ _)

theorem fallbackRanking_length_le (candidates : List Candidate) (top_k : Nat) :
    (fallbackRanking candidates top_k).length ≤ top_k := by
  simp only [fallbackRanking]
  exact List.length_take_le _ _

theorem rerank_length_le (env : RAGEnv) (query : String)
    (candidates : List Candidate) (topk? : Option Nat) :
    (rerank env query candidates topk?).length ≤ resolveTopK topk? := by
  simp only [rerank]
  by_cases h0 : candidates = []
  · simp [h0]
  · simp only [h0, if_false]
    by_cases h1 : env.rerankerModelAvailable = false
    · simp only [h1, if_true]
      exact fallbackRanking_length_le _ _
    · simp only [h1, if_false]
      by_cases h2 : env.rerankerScoreOk = false
      · simp only [h2, if_true]
        exact fallbackRanking_length_le _ _
      · simp only [h2, if_false]
        exact rerankCross_length_le _ _ _ _

theorem mem_fallbackRanking (candidates : List Candidate) (top_k : Nat)
    (c : Candidate) (hc : c ∈ fallbackRanking candidates top_k) :
    c.relevance_score = some (max 0 (1 - c.distance / 2)) := by
  simp only [fallbackRanking] at hc
  have hmem := List.mem_of_mem_take hc
  rcases List.mem_map.mp hmem with ⟨x, _, hx⟩
  rw [← hx]

theorem rerank_fallback_eq (env : RAGEnv) (query : String)
    (candidates : List Candidate) (topk? : Option Nat)
    (h : env.rerankerModelAvailable = false ∨ env.rerankerScoreOk = false) :
    rerank env query candidates topk?
      = fallbackRanking candidates (resolveTopK topk?) := by
  simp only [rerank]
  by_cases h0 : candidates = []
  · simp [h0, fallbackRanking]
  · rcases h with h | h
    · simp [h0, h]
    · simp only [h0, if_false, h, if_true]
      by_cases h1 : env.rerankerModelAvailable = false
      · simp [h1]
      · simp [h1]

/-! ### Helper lemmas about citation assembly -/

theorem buildCitationsAux_rank_le (l : List Candidate) :
    ∀ r, ∀ cit ∈ buildCitationsAux r l, r ≤ cit.rank := by
  induction l with
  | nil => intro r cit h; simp [buildCitationsAux] at h
  | cons c rest ih =>
    intro r cit h
    simp only [buildCitationsAux] at h
    rcases hd : c.metadata.document_id with _ | did
    · rw [hd] at h
      exact le_trans (Nat.le_succ r) (ih (r + 1) cit h)
    · rw [hd] at h
      dsimp only at h
      by_cases hne : did ≠ ""
      · rw [if_pos hne] at h
        rcases List.mem_cons.mp h with h | h
        · simp [h, mkCitation]
        · exact le_trans (Nat.le_succ r) (ih (r + 1) cit h)
      · rw [if_neg hne] at h
        exact le_trans (Nat.le_succ r) (ih (r + 1) cit h)

theorem buildCitationsAux_pairwise (l : List Candidate) :
    ∀ r, (buildCitationsAux r l).Pairwise fun a b => a.rank < b.rank := by
  induction l with
  | nil => intro r; simp [buildCitationsAux]
  | cons c rest ih =>
    intro r
    simp only [buildCitationsAux]
    rcases hd : c.metadata.document_id with _ | did
    · exact ih (r + 1)
    · dsimp only
      by_cases hne : did ≠ ""
      · rw [if_pos hne]
        refine List.pairwise_cons.mpr ⟨?_, ih (r + 1)⟩
        intro cit hcit
        have := buildCitationsAux_rank_le rest (r + 1) cit hcit
        simp only [mkCitation]
        omega
      · rw [if_neg hne]
        exact ih (r + 1)

theorem buildCitationsAux_length_le (l : List Candidate) :
    ∀ r, (buildCitationsAux r l).length ≤ l.length := by
  induction l with
  | nil => intro r; simp [buildCitationsAux]
  | cons c rest ih =>
    intro r
    simp only [buildCitationsAux]
    rcases c.metadata.document_id with _ | did
    · exact le_trans (ih (r + 1)) (Nat.le_succ _)
    · dsimp only
      by_cases hne : did ≠ ""
      · rw [if_pos hne]
        simp only [List.length_cons]
        exact Nat.succ_le_succ (ih (r + 1))
      · rw [if_neg hne]
        exact le_trans (ih (r + 1)) (Nat.le_succ _)

theorem buildCitationsAux_dense (l : List Candidate)
    (h : ∀ c ∈ l, docIdTruthy c.metadata = true) :
    ∀ r, (buildCitationsAux r l).map CitationResult.rank = List.range' r l.length := by
  induction l with
  | nil => intro r; simp [buildCitationsAux]
  | cons c rest ih =>
    intro r
    have hc := h c (List.mem_cons_self c rest)
    simp only [docIdTruthy] at hc
    simp only [buildCitationsAux]
    rcases hd : c.metadata.document_id with _ | did
    · rw [hd] at hc; simp at hc
    · rw [hd] at hc
      simp only [decide_eq_true_eq] at hc
      dsimp only
      rw [if_pos hc]
      simp only [List.map, mkCitation, List.length_cons, List.range']
      have := ih (fun x hx => h x (List.mem_cons_of_mem c hx)) (r + 1)
      rw [this]

/-! ### Claim C5: cross-encoder path ordering and truncation -/

/-- C5: on the cross-encoder path, `rerank` sorts all candidates descending
by score (a permutation of the scored list, pairwise descending), truncates
to the first `top_k`, and only then discards candidates below
`relevance_threshold` preserving order: the result has at most `top_k`
elements, every surviving score reaches the threshold, the result is
pairwise descending by `relevance_score`, and it is a sublist of the
score-annotated first `top_k` of the sorted list — so a candidate at sorted
position `top_k` or later never appears, even if its raw score exceeds the
threshold, and no candidate follows a surviving lower-scored one. -/
theorem C5_rerank_order (score : String → String → ℚ) (query : String)
    (cands : List Candidate) (top_k : Nat) :
    List.Perm (sortDesc (cands.map fun c => (c, score query c.text)))
      (cands.map fun c => (c, score query c.text))
    ∧ (sortDesc (cands.map fun c => (c, score query c.text))).Pairwise
        (fun a b => b.2 ≤ a.2)
    ∧ (rerankCross score query cands top_k).length ≤ top_k
    ∧ (∀ c ∈ rerankCross score query cands top_k,
        rag_relevance_threshold ≤ relScore c)
    ∧ (rerankCross score query cands top_k).Pairwise
        (fun a b => relScore b ≤ relScore a)
    ∧ List.Sublist (rerankCross score query cands top_k)
        (((sortDesc (cands.map fun c => (c, score query c.text))).take top_k).map
          fun p => { p.1 with relevance_score := some p.2 }) :=
  ⟨sortDesc_perm _, sortDesc_pairwise _, rerankCross_length_le _ _ _ _,
   fun c hc => mem_rerankCross_threshold _ _ _ _ c hc,
   rerankCross_pairwise _ _ _ _, filterMap_guard_sublist _⟩

def candC5w : Candidate :=
  { id := "w5", text := "tw5", metadata := { document_id := some "d5" }, distance := 1/2 }

/-- C5 witness: the length bound instantiated at a concrete input. -/
theorem C5_rerank_order_witness :
    (rerankCross (fun _ _ => (1 : ℚ)/2) "q" [candC5w] 3).length ≤ 3 :=
  (C5_rerank_order (fun _ _ => (1 : ℚ)/2) "q" [candC5w] 3).2.2.1

/-! ### Claim C2: threshold invariant across rerank paths -/

def envC2 : RAGEnv :=
  { keywordModelAvailable := false
    keywordExtract := fun _ => none
    embed := fun _ => []
    search := fun _ _ => { ids := [], documents := [], metadatas := [], distances := [] }
    rerankerModelAvailable := false
    rerankerScoreOk := true
    rerankerScore := fun _ _ => 0
    persistOk := true
    elapsedMs := 0 }

def candC2fb : Candidate := { id := "c1", text := "t1", metadata := {}, distance := 2 }

/-- C2 counterexample: with the reranker model unavailable, `rerank` falls
back to distance scoring and returns a candidate whose relevance score 0 is
below the 0.4 threshold — so not every path filters by the threshold. -/
theorem C2_counterexample :
    (rerank envC2 "q" [candC2fb] (some rag_top_k_results)).map relScore = [0]
    ∧ (0 : ℚ) < rag_relevance_threshold := by
  norm_num [rerank, envC2, candC2fb, fallbackRanking, resolveTopK, rag_top_k_results,
    relScore, rag_relevance_threshold]

/-- C2 (amended): only the cross-encoder path guarantees every returned
element has `relevance_score ≥ relevance_threshold`; the model-unavailable
and scoring-exception paths return `_fallback_ranking`, which assigns
`max 0 (1 - distance/2)` and truncates without threshold filtering. -/
theorem C2_threshold_paths (env : RAGEnv) (query : String)
    (cands : List Candidate) (topk? : Option Nat) :
    (env.rerankerModelAvailable = true → env.rerankerScoreOk = true →
      ∀ c ∈ rerank env query cands topk?, rag_relevance_threshold ≤ relScore c)
    ∧ ((env.rerankerModelAvailable = false ∨ env.rerankerScoreOk = false) →
      rerank env query cands topk? = fallbackRanking cands (resolveTopK topk?)) := by
  constructor
  · intro h1 h2 c hc
    by_cases h0 : cands = []
    · simp [rerank, h0] at hc
    · simp only [rerank, h0, if_false, h1, h2] at hc
      simp only [show (true = false) = False by simp, if_false] at hc
      exact mem_rerankCross_threshold _ _ _ _ c hc
  · exact rerank_fallback_eq env query cands topk?

def envC2w : RAGEnv :=
  { envC2 with rerankerModelAvailable := true, rerankerScore := fun _ _ => 1/2 }

def candC2w : Candidate := { id := "a", text := "ta", metadata := {}, distance := 1 }

/-- C2 witness: both conjuncts instantiated at concrete inputs, the first
on the cross-encoder path and the second on the fallback path. -/
theorem C2_threshold_paths_witness :
    rag_relevance_threshold ≤ relScore { candC2w with relevance_score := some (1/2) }
    ∧ rerank envC2 "q" [candC2fb] (some rag_top_k_results)
        = fallbackRanking [candC2fb] rag_top_k_results := by
  constructor
  · apply (C2_threshold_paths envC2w "q" [candC2w] (some rag_top_k_results)).1 rfl rfl
    have h : rerank envC2w "q" [candC2w] (some rag_top_k_results)
        = [{ candC2w with relevance_score := some (1/2) }] := by
      norm_num [rerank, envC2w, envC2, candC2w, rerankCross, sortDesc, insertDesc,
        thresholdKeep, List.filterMap_cons, rag_relevance_threshold, resolveTopK,
        rag_top_k_results]
    rw [h]
    exact List.mem_singleton.mpr rfl
  · exact (C2_threshold_paths envC2 "q" [candC2fb] (some rag_top_k_results)).2 (Or.inl rfl)

/-! ### Claim C6: fallback behavior of rerank -/

def envC6 : RAGEnv :=
  { keywordModelAvailable := false
    keywordExtract := fun _ => none
    embed := fun _ => []
    search := fun _ _ => { ids := [], documents := [], metadatas := [], distances := [] }
    rerankerModelAvailable := true
    rerankerScoreOk := false
    rerankerScore := fun _ _ => 9/10
    persistOk := true
    elapsedMs := 0 }

def candC6 : Candidate :=
  { id := "c", text := "tc", metadata := { document_id := some "doc" }, distance := 19/10 }

/-- C6 counterexample: a scoring exception triggers the distance fallback,
which returns a candidate with score 1/20 even though 1/20 is below the
relevance threshold — the fallback does not proceed to the thresholding
step of the cross-encoder path. -/
theorem C6_counterexample :
    rerank envC6 "q" [candC6] (some rag_top_k_results)
      = [{ candC6 with relevance_score := some (1/20) }]
    ∧ (1/20 : ℚ) < rag_relevance_threshold := by
  constructor
  · norm_num [rerank, envC6, candC6, fallbackRanking, resolveTopK, rag_top_k_results]
  · norm_num [rag_relevance_threshold]

/-- C6 (amended): if the reranker model is unavailable or a model exception
occurs during scoring, `rerank` does not raise and assigns every candidate
`relevance_score = max 0 (1 - distance/2)`, then truncates to the first
`top_k` WITHOUT applying the relevance threshold. -/
theorem C6_fallback_no_threshold (env : RAGEnv) (query : String)
    (cands : List Candidate) (topk? : Option Nat)
    (h : env.rerankerModelAvailable = false ∨ env.rerankerScoreOk = false) :
    rerank env query cands topk? = fallbackRanking cands (resolveTopK topk?)
    ∧ ∀ c ∈ rerank env query cands topk?,
        c.relevance_score = some (max 0 (1 - c.distance / 2)) := by
  refine ⟨rerank_fallback_eq env query cands topk? h, ?_⟩
  intro c hc
  rw [rerank_fallback_eq env query cands topk? h] at hc
  exact mem_fallbackRanking _ _ c hc

def envC6w : RAGEnv := { envC6 with rerankerModelAvailable := false, rerankerScoreOk := true }

def candC6w : Candidate := { id := "cw", text := "tcw", metadata := {}, distance := 1 }

/-- C6 witness: the fallback equation and the assigned score of the
returned element, at a concrete model-unavailable input. -/
theorem C6_fallback_no_threshold_witness :
    rerank envC6w "q" [candC6w] (some rag_top_k_results)
      = fallbackRanking [candC6w] rag_top_k_results
    ∧ ({ candC6w with relevance_score := some (1/2) } : Candidate).relevance_score
        = some (max 0 (1 - ({ candC6w with relevance_score := some (1/2) } : Candidate).distance / 2)) := by
  constructor
  · exact (C6_fallback_no_threshold envC6w "q" [candC6w] (some rag_top_k_results) (Or.inl rfl)).1
  · apply (C6_fallback_no_threshold envC6w "q" [candC6w] (some rag_top_k_results) (Or.inl rfl)).2
    have h : rerank envC6w "q" [candC6w] (some rag_top_k_results)
        = [{ candC6w with relevance_score := some (1/2) }] := by
      norm_num [rerank, envC6w, envC6, candC6w, fallbackRanking, resolveTopK, rag_top_k_results]
    rw [h]
    exact List.mem_singleton.mpr rfl

/-! ### Helper lemmas about the pipeline -/

theorem shouldEarlyExit_true (cands : List Candidate)
    (h : cands = [] ∨ rag_distance_threshold < minDistance cands) :
    shouldEarlyExit cands = true := by
  rcases h with h | h
  · simp [h, shouldEarlyExit]
  · cases cands with
    | nil => simp [shouldEarlyExit]
    | cons c cs =>
      simp only [shouldEarlyExit, decide_eq_true_eq]
      exact h

theorem ragQuery_response_eq (env : RAGEnv) (sid text : String) (w : Int) :
    (ragQuery env sid text w).response =
      { window_index := w
        citations :=
          if shouldEarlyExit (candidatesOf env text) = true then []
          else citationsOf env text
        query_metadata := metadataOf env text } := by
  unfold ragQuery
  by_cases h : shouldEarlyExit (candidatesOf env text) = true
  · simp [h]
  · simp [h]

theorem candidatesOf_persist (env : RAGEnv) (a : Bool) (text : String) :
    candidatesOf { env with persistOk := a } text = candidatesOf env text := rfl

theorem citationsOf_persist (env : RAGEnv) (a : Bool) (text : String) :
    citationsOf { env with persistOk := a } text = citationsOf env text := rfl

theorem metadataOf_persist (env : RAGEnv) (a : Bool) (text : String) :
    metadataOf { env with persistOk := a } text = metadataOf env text := rfl

/-! ### Claim C1: rank sequence of the returned citations -/

def envC1 : RAGEnv :=
  { keywordModelAvailable := false
    keywordExtract := fun _ => none
    embed := fun _ => []
    search := fun _ _ =>
      { ids := ["a", "b"]
        documents := ["ta", "tb"]
        metadatas := [{}, { document_id := some "d" }]
        distances := [0, 0] }
    rerankerModelAvailable := false
    rerankerScoreOk := true
    rerankerScore := fun _ _ => 0
    persistOk := true
    elapsedMs := 7 }

theorem c1_candidates : candidatesOf envC1 "sample transcript text" =
    [{ id := "a", text := "ta", metadata := {}, distance := 0 },
     { id := "b", text := "tb", metadata := { document_id := some "d" }, distance := 0 }] := by
  simp [candidatesOf, envC1, buildCandidates, List.range_succ]

theorem c1_noexit : shouldEarlyExit (candidatesOf envC1 "sample transcript text") = false := by
  rw [c1_candidates]
  norm_num [shouldEarlyExit, minDistance, rag_distance_threshold]

theorem c1_reranked : rerankedOf envC1 "sample transcript text" =
    [{ id := "a", text := "ta", metadata := {}, distance := 0, relevance_score := some 1 },
     { id := "b", text := "tb", metadata := { document_id := some "d" }, distance := 0,
       relevance_score := some 1 }] := by
  rw [rerankedOf, c1_candidates]
  norm_num [rerank, envC1, fallbackRanking, resolveTopK, rag_top_k_results]
  exact fun h => absurd h (by simp)

theorem c1_citations : citationsOf envC1 "sample transcript text" =
    [{ rank := 2, document_id := "d", document_name := "Unknown", page_number := 0,
       section_heading := none, snippet := "tb", relevance_score := 1 }] := by
  rw [citationsOf, c1_reranked]
  simp [buildCitations, buildCitationsAux, mkCitation, relScore]

/-- C1 counterexample: a non-early-exit query whose first reranked
candidate lacks a `document_id` returns a single citation with rank 2, so
the rank values are not the dense sequence 1..N — dropping an intermediate
candidate leaves a gap because `enumerate(reranked, start=1)` keeps
counting over skipped candidates. -/
theorem C1_counterexample :
    (ragQuery envC1 "s" "sample transcript text" 0).response.citations.map CitationResult.rank = [2]
    ∧ (ragQuery envC1 "s" "sample transcript text" 0).rerankCalls = 1
    ∧ ¬((ragQuery envC1 "s" "sample transcript text" 0).response.citations.map CitationResult.rank
        = List.range' 1 (ragQuery envC1 "s" "sample transcript text" 0).response.citations.length) := by
  have hcit : (ragQuery envC1 "s" "sample transcript text" 0).response.citations
      = citationsOf envC1 "sample transcript text" := by
    rw [ragQuery_response_eq]
    simp [c1_noexit]
  refine ⟨?_, ?_, ?_⟩
  · rw [hcit, c1_citations]
    rfl
  · simp [ragQuery, c1_noexit]
  · rw [hcit, c1_citations]
    decide

/-- C1 (amended): the citations returned by `query` are always sorted
strictly ascending by rank with at most `top_k_results` elements, and the
ranks form the dense sequence 1..N exactly in the case that every reranked
candidate carries a usable `document_id`; a dropped intermediate candidate
instead leaves a gap at its position. -/
theorem C1_citation_ranks (env : RAGEnv) (sid text : String) (w : Int) :
    List.Pairwise (fun a b => a.rank < b.rank) (ragQuery env sid text w).response.citations
    ∧ (ragQuery env sid text w).response.citations.length ≤ rag_top_k_results
    ∧ ((∀ c ∈ rerankedOf env text, docIdTruthy c.metadata = true) →
        (ragQuery env sid text w).response.citations.map CitationResult.rank
          = List.range' 1 (ragQuery env sid text w).response.citations.length) := by
  by_cases hExit : shouldEarlyExit (candidatesOf env text) = true
  · rw [ragQuery_response_eq]
    simp [hExit]
  · have hcit : (ragQuery env sid text w).response.citations = citationsOf env text := by
      rw [ragQuery_response_eq]
      simp [hExit]
    rw [hcit]
    refine ⟨buildCitationsAux_pairwise _ 1, ?_, ?_⟩
    · have h1 := buildCitationsAux_length_le (rerankedOf env text) 1
      have h2 : (rerankedOf env text).length ≤ rag_top_k_results := by
        have h3 := rerank_length_le env text (candidatesOf env text) (some rag_top_k_results)
        simpa [rerankedOf, resolveTopK, rag_top_k_results] using h3
      exact le_trans h1 h2
    · intro hids
      have hd := buildCitationsAux_dense (rerankedOf env text) hids 1
      have hlen : (citationsOf env text).length = (rerankedOf env text).length := by
        have h4 := congrArg List.length hd
        simpa [citationsOf, buildCitations] using h4
      rw [hlen]
      exact hd

def envC1w : RAGEnv :=
  { envC1 with
    search := fun _ _ =>
      { ids := ["a", "b"]
        documents := ["ta", "tb"]
        metadatas := [{ document_id := some "c" }, { document_id := some "d" }]
        distances := [0, 0] } }

theorem c1w_reranked : rerankedOf envC1w "sample transcript text" =
    [{ id := "a", text := "ta", metadata := { document_id := some "c" }, distance := 0,
       relevance_score := some 1 },
     { id := "b", text := "tb", metadata := { document_id := some "d" }, distance := 0,
       relevance_score := some 1 }] := by
  have hc : candidatesOf envC1w "sample transcript text" =
      [{ id := "a", text := "ta", metadata := { document_id := some "c" }, distance := 0 },
       { id := "b", text := "tb", metadata := { document_id := some "d" }, distance := 0 }] := by
    simp [candidatesOf, envC1w, envC1, buildCandidates, List.range_succ]
  rw [rerankedOf, hc]
  norm_num [rerank, envC1w, envC1, fallbackRanking, resolveTopK, rag_top_k_results]
  exact fun h => absurd h (by simp)

/-- C1 witness: when every reranked candidate carries a `document_id`, the
density conclusion holds at a concrete input. -/
theorem C1_citation_ranks_witness :
    (ragQuery envC1w "s" "sample transcript text" 0).response.citations.map CitationResult.rank
      = List.range' 1 (ragQuery envC1w "s" "sample transcript text" 0).response.citations.length :=
  (C1_citation_ranks envC1w "s" "sample transcript text" 0).2.2 (by rw [c1w_reranked]; decide)

/-! ### Claim C3: distance-based early exit -/

def envC3 : RAGEnv :=
  { keywordModelAvailable := true
    keywordExtract := fun _ => some ["kw"]
    embed := fun _ => [1]
    search := fun _ _ => { ids := [], documents := [], metadatas := [], distances := [] }
    rerankerModelAvailable := true
    rerankerScoreOk := true
    rerankerScore := fun _ _ => 1
    persistOk := true
    elapsedMs := 5 }

/-- C3: if the candidate list is empty or its minimum distance exceeds the
distance threshold, `query` returns an empty citation list without
invoking the reranker, and the response still carries the extracted
keywords and the elapsed processing time in its metadata. -/
theorem C3_early_exit (env : RAGEnv) (sid text : String) (w : Int)
    (h : candidatesOf env text = []
      ∨ rag_distance_threshold < minDistance (candidatesOf env text)) :
    (ragQuery env sid text w).response.citations = []
    ∧ (ragQuery env sid text w).rerankCalls = 0
    ∧ (ragQuery env sid text w).response.query_metadata.keywords = extractKeywords env text
    ∧ (ragQuery env sid text w).response.query_metadata.processing_time_ms = env.elapsedMs := by
  have hExit := shouldEarlyExit_true _ h
  simp [ragQuery, hExit, metadataOf]

/-- C3 witness: the early-exit conclusions at a concrete environment whose
vector search returns no candidates. -/
theorem C3_early_exit_witness :
    (ragQuery envC3 "s" "short tx" 0).response.citations = []
    ∧ (ragQuery envC3 "s" "short tx" 0).rerankCalls = 0
    ∧ (ragQuery envC3 "s" "short tx" 0).response.query_metadata.keywords
        = extractKeywords envC3 "short tx"
    ∧ (ragQuery envC3 "s" "short tx" 0).response.query_metadata.processing_time_ms
        = envC3.elapsedMs :=
  C3_early_exit envC3 "s" "short tx" 0 (Or.inl rfl)

/-! ### Claim C4: behavior on whitespace-only transcript text -/

def envC4 : RAGEnv :=
  { keywordModelAvailable := true
    keywordExtract := fun _ => some ["kw"]
    embed := fun _ => [1]
    search := fun _ _ =>
      { ids := ["a"]
        documents := ["ta"]
        metadatas := [{ document_id := some "d" }]
        distances := [0] }
    rerankerModelAvailable := false
    rerankerScoreOk := true
    rerankerScore := fun _ _ => 0
    persistOk := true
    elapsedMs := 9 }

theorem c4_candidates : candidatesOf envC4 "   " =
    [{ id := "a", text := "ta", metadata := { document_id := some "d" }, distance := 0 }] := by
  simp [candidatesOf, envC4, buildCandidates, List.range_succ]

theorem c4_noexit : shouldEarlyExit (candidatesOf envC4 "   ") = false := by
  rw [c4_candidates]
  norm_num [shouldEarlyExit, minDistance, rag_distance_threshold]

theorem c4_citations : citationsOf envC4 "   " =
    [{ rank := 1, document_id := "d", document_name := "Unknown", page_number := 0,
       section_heading := none, snippet := "ta", relevance_score := 1 }] := by
  have hr : rerankedOf envC4 "   " =
      [{ id := "a", text := "ta", metadata := { document_id := some "d" }, distance := 0,
         relevance_score := some 1 }] := by
    rw [rerankedOf, c4_candidates]
    norm_num [rerank, envC4, fallbackRanking, resolveTopK, rag_top_k_results]
  rw [citationsOf, hr]
  simp [buildCitations, buildCitationsAux, mkCitation, relScore]

/-- C4 counterexample: on a whitespace-only transcript, `query` does not
short-circuit — it still invokes the embedding service and the vector
index, and can even return a non-empty citation list when the index yields
a close candidate. -/
theorem C4_counterexample :
    (ragQuery envC4 "s" "   " 0).embedCalls = 1
    ∧ (ragQuery envC4 "s" "   " 0).vectorQueryCalls = 1
    ∧ (ragQuery envC4 "s" "   " 0).response.citations ≠ [] := by
  refine ⟨?_, ?_, ?_⟩
  · unfold ragQuery
    split <;> rfl
  · unfold ragQuery
    split <;> rfl
  · have hcit : (ragQuery envC4 "s" "   " 0).response.citations = citationsOf envC4 "   " := by
      rw [ragQuery_response_eq]
      simp [c4_noexit]
    rw [hcit, c4_citations]
    simp

/-- C4 (amended): for whitespace-only transcript text only the keyword
extractor short-circuits (no model call, empty keywords, enriched query
unchanged); `RAGService.query` itself still invokes the embedding service
and the vector index.  The guard that prevents any model invocation on
whitespace-only text lives in the websocket caller: `SegmentBuffer`
reports `is_complete = false` for such text, so RAG is never triggered. -/
theorem C4_whitespace (env : RAGEnv) (sid text : String) (w : Int)
    (h : pyStripLen text = 0) :
    (ragQuery env sid text w).keywordModelCalls = 0
    ∧ (ragQuery env sid text w).response.query_metadata.keywords = []
    ∧ enrichedOf env text = text
    ∧ (ragQuery env sid text w).embedCalls = 1
    ∧ (ragQuery env sid text w).vectorQueryCalls = 1
    ∧ ∀ b : SegmentBuffer, pyStripLen b.get_text = 0 → b.is_complete = false := by
  have hshort : (text = "" ∨ pyStripLen text < 10) := Or.inr (by omega)
  have hkw : extractKeywords env text = [] := by
    unfold extractKeywords
    rw [if_pos hshort]
  refine ⟨?_, ?_, ?_, ?_, ?_, ?_⟩
  · have hc : keywordModelCallCount env text = 0 := by
      unfold keywordModelCallCount
      rw [if_pos hshort]
    unfold ragQuery
    split <;> exact hc
  · rw [ragQuery_response_eq]
    simp [metadataOf, hkw]
  · simp [enrichedOf, enrichQuery, hkw, buildEnrichedQuery]
  · unfold ragQuery
    split <;> rfl
  · unfold ragQuery
    split <;> rfl
  · intro b hb
    unfold SegmentBuffer.is_complete
    cases hc : b.current with
    | none => simp
    | some p => simp [hb]

/-- C4 witness: the amended conclusions at a concrete whitespace input. -/
theorem C4_whitespace_witness :
    (ragQuery envC4 "s" "   " 0).keywordModelCalls = 0
    ∧ (ragQuery envC4 "s" "   " 0).response.query_metadata.keywords = []
    ∧ enrichedOf envC4 "   " = "   "
    ∧ (ragQuery envC4 "s" "   " 0).embedCalls = 1
    ∧ (ragQuery envC4 "s" "   " 0).vectorQueryCalls = 1
    ∧ ∀ b : SegmentBuffer, pyStripLen b.get_text = 0 → b.is_complete = false :=
  C4_whitespace envC4 "s" "   " 0 (by decide)

/-! ### Claim C9: persistence failures never alter the response -/

/-- C9: the response of `query` — citations and metadata included — is
identical whether the citation-persistence write succeeds or throws; the
failure is caught inside `_store_citations_in_convex` and only logged. -/
theorem C9_persistence_independent (env : RAGEnv) (a b : Bool) (sid text : String) (w : Int) :
    (ragQuery { env with persistOk := a } sid text w).response
      = (ragQuery { env with persistOk := b } sid text w).response := by
  rw [ragQuery_response_eq, ragQuery_response_eq]
  simp only [candidatesOf_persist, citationsOf_persist, metadataOf_persist]

/-! ### Claim C7: windowed segment buffer trigger conditions -/

set_option maxRecDepth 8000

/-- C7: with MIN_WORDS=15, MAX_WORDS=150, MIN_SEGMENTS=2 and
target_sentences=3, `is_complete` is true exactly when one of the three
trigger conditions holds (word count ≥ 150; abbreviation-aware sentence
count ≥ 3 with word count ≥ 15; segment count ≥ 2 with word count ≥ 15);
in particular three fragments totaling 20 words with 3 terminal marks are
ready, a single 200-word fragment is ready, and two 5-word unpunctuated
fragments are not. -/
theorem C7_window_trigger :
    (∀ (segs : List String) (i : Nat),
      (SlidingWindowBuffer.is_complete { segments := segs, target_sentences := 3, index := i } = true)
        ↔ (MAX_WORDS ≤ countWords (String.intercalate " " segs)
           ∨ (3 ≤ countSentences (String.intercalate " " segs)
              ∧ MIN_WORDS ≤ countWords (String.intercalate " " segs))
           ∨ (MIN_SEGMENTS ≤ segs.length
              ∧ MIN_WORDS ≤ countWords (String.intercalate " " segs))))
    ∧ SlidingWindowBuffer.is_complete
        { segments := ["aa bb cc dd ee ff.", "gg hh jj kk ll mm.", "nn oo qq rr ss tt uu vv."] } = true
    ∧ SlidingWindowBuffer.is_complete
        { segments := [String.intercalate " " (List.replicate 200 "aa")] } = true
    ∧ SlidingWindowBuffer.is_complete { segments := ["aa bb cc dd ee", "ff gg hh jj kk"] } = false := by
  refine ⟨?_, by decide, by decide, by decide⟩
  intro segs i
  simp only [SlidingWindowBuffer.is_complete, SlidingWindowBuffer.get_text]
  split_ifs with h1 h2 h3 <;> simp_all

/-! ### Claim C8: graceful query enrichment -/

/-- C8: `enrich_query` never raises (it is a total function of its
environment): its keywords are exactly those of `extract_keywords`; when
the keywords are empty the enriched query is the text unchanged, otherwise
the enriched query is the text followed by one space-joined copy of the
keywords; and on empty text, stripped length below 10, model load failure
or an extraction exception the keywords are `[]` and the query is
unchanged. -/
theorem C8_enrich_graceful (env : RAGEnv) (text : String) :
    (enrichQuery env text).keywords = extractKeywords env text
    ∧ ((enrichQuery env text).keywords = [] → (enrichQuery env text).enriched_query = text)
    ∧ ((enrichQuery env text).keywords ≠ [] →
        (enrichQuery env text).enriched_query
          = text ++ " " ++ String.intercalate " " (enrichQuery env text).keywords)
    ∧ ((text = "" ∨ pyStripLen text < 10 ∨ env.keywordModelAvailable = false
        ∨ env.keywordExtract text = none) →
        (enrichQuery env text).keywords = [] ∧ (enrichQuery env text).enriched_query = text) := by
  refine ⟨rfl, ?_, ?_, ?_⟩
  · intro h
    simp only [enrichQuery] at h ⊢
    simp [buildEnrichedQuery, h]
  · intro h
    simp only [enrichQuery] at h ⊢
    simp [buildEnrichedQuery, h]
  · intro h
    have hk : extractKeywords env text = [] := by
      unfold extractKeywords
      rcases h with h | h | h | h
      · rw [if_pos (Or.inl h)]
      · rw [if_pos (Or.inr h)]
      · split
        · rfl
        · simp [h]
      · split
        · rfl
        · split
          · rfl
          · simp [h]
    refine ⟨hk, ?_⟩
    simp only [enrichQuery]
    simp [buildEnrichedQuery, hk]

def envC8 : RAGEnv :=
  { keywordModelAvailable := true
    keywordExtract := fun _ => some ["alpha", "beta"]
    embed := fun _ => []
    search := fun _ _ => { ids := [], documents := [], metadatas := [], distances := [] }
    rerankerModelAvailable := true
    rerankerScoreOk := true
    rerankerScore := fun _ _ => 0
    persistOk := true
    elapsedMs := 0 }

/-- C8 witness: the append case on a long text and the short-text case on
a 2-character text, at a concrete environment. -/
theorem C8_enrich_graceful_witness :
    (enrichQuery envC8 "machine learning basics").enriched_query
      = "machine learning basics" ++ " "
        ++ String.intercalate " " (enrichQuery envC8 "machine learning basics").keywords
    ∧ ((enrichQuery envC8 "hi").keywords = [] ∧ (enrichQuery envC8 "hi").enriched_query = "hi") :=
  ⟨(C8_enrich_graceful envC8 "machine learning basics").2.2.1 (by decide),
   (C8_enrich_graceful envC8 "hi").2.2.2 (Or.inr (Or.inl (by decide)))⟩

/-! ### Claim C10: citation assembly defaults -/

theorem buildCitationsAux_mem_of_get (l : List Candidate) :
    ∀ (r i : Nat) (h : i < l.length) (did : String),
      (l.get ⟨i, h⟩).metadata.document_id = some did → did ≠ "" →
      mkCitation (r + i) (l.get ⟨i, h⟩) did ∈ buildCitationsAux r l := by
  induction l with
  | nil =>
    intro r i h
    exact absurd h (by simp)
  | cons c rest ih =>
    intro r i h did hdid hne
    cases i with
    | zero =>
      simp only [List.get] at hdid ⊢
      simp only [buildCitationsAux]
      rw [hdid]
      dsimp only
      rw [if_pos hne]
      exact List.mem_cons_self _ _
    | succ j =>
      have hj : j < rest.length := by simpa using h
      have hget : (c :: rest).get ⟨j + 1, h⟩ = rest.get ⟨j, hj⟩ := rfl
      have hmem := ih (r + 1) j hj did (by rw [← hget]; exact hdid) hne
      have harith : r + (j + 1) = (r + 1) + j := by omega
      simp only [buildCitationsAux]
      rw [hget, harith]
      cases hd : c.metadata.document_id with
      | none => exact hmem
      | some d =>
        dsimp only
        by_cases hd2 : d ≠ ""
        · rw [if_pos hd2]
          exact List.mem_cons_of_mem _ hmem
        · rw [if_neg hd2]
          exact hmem

/-- C10: every reranked candidate whose metadata carries a (non-empty)
`document_id` yields a citation — with rank equal to its 1-based position
in the reranked list — even when every other field is missing:
`document_name` defaults to "Unknown", `page_number` to 0,
`section_heading` to `none`, `relevance_score` to 0.5, and the snippet is
always the first 200 characters of the candidate text. -/
theorem C10_citation_defaults (l : List Candidate) (i : Nat) (h : i < l.length) (did : String)
    (hdid : (l.get ⟨i, h⟩).metadata.document_id = some did) (hne : did ≠ "") :
    mkCitation (i + 1) (l.get ⟨i, h⟩) did ∈ buildCitations l
    ∧ (mkCitation (i + 1) (l.get ⟨i, h⟩) did).rank = i + 1
    ∧ (mkCitation (i + 1) (l.get ⟨i, h⟩) did).document_id = did
    ∧ (mkCitation (i + 1) (l.get ⟨i, h⟩) did).document_name
        = (l.get ⟨i, h⟩).metadata.document_name.getD "Unknown"
    ∧ (mkCitation (i + 1) (l.get ⟨i, h⟩) did).page_number
        = (l.get ⟨i, h⟩).metadata.page_number.getD 0
    ∧ (mkCitation (i + 1) (l.get ⟨i, h⟩) did).section_heading
        = (l.get ⟨i, h⟩).metadata.section_heading
    ∧ (mkCitation (i + 1) (l.get ⟨i, h⟩) did).relevance_score
        = (l.get ⟨i, h⟩).relevance_score.getD (1/2)
    ∧ (mkCitation (i + 1) (l.get ⟨i, h⟩) did).snippet
        = String.mk ((l.get ⟨i, h⟩).text.data.take 200) := by
  refine ⟨?_, rfl, rfl, rfl, rfl, rfl, rfl, rfl⟩
  have hm := buildCitationsAux_mem_of_get l 1 i h did hdid hne
  have harith : 1 + i = i + 1 := by omega
  rw [harith] at hm
  exact hm

def candC10 : Candidate :=
  { id := "x", text := "abc", metadata := { document_id := some "docX" }, distance := 0,
    relevance_score := none }

/-- C10 witness: the defaults at a concrete candidate that carries only a
`document_id`. -/
theorem C10_citation_defaults_witness :
    mkCitation 1 candC10 "docX" ∈ buildCitations [candC10]
    ∧ (mkCitation 1 candC10 "docX").document_name = "Unknown"
    ∧ (mkCitation 1 candC10 "docX").page_number = 0
    ∧ (mkCitation 1 candC10 "docX").section_heading = none
    ∧ (mkCitation 1 candC10 "docX").relevance_score = 1/2
    ∧ (mkCitation 1 candC10 "docX").snippet = "abc" := by
  have h := C10_citation_defaults [candC10] 0 (by simp) "docX" rfl (by simp)
  exact ⟨h.1, h.2.2.2.1, h.2.2.2.2.1, h.2.2.2.2.2.1, h.2.2.2.2.2.2.1, h.2.2.2.2.2.2.2⟩

end RAG
